import Mathlib

/-!
Verification development for the signature-authenticated request layer of the
mail_box_indexer_client library.  The definitions below are shallow embeddings
of the TypeScript source: `src/src/network/IndexerClient.ts` (request executor,
auth header builder, endpoint diagnostics), `src/src/hooks/useIndexerPoints.ts`
(dev-mode fallback controller) and the referral consumption state machine.
-/

namespace MailBoxIndexer

/-- Authentication credential, from `interface IndexerUserAuth` in src/src/types.ts. -/
structure IndexerUserAuth where
  message : String
  signature : String
  signer : String
deriving DecidableEq

/-- Shape of `NetworkResponse<T>` from src/src/network/IndexerClient.ts (lines 33-41). -/
structure NetworkResponse (T : Type) where
  ok : Bool
  status : Nat
  statusText : String
  data : T
  headers : List (String × String)
  success : Bool
  timestamp : String
deriving DecidableEq

/-- Outcome of the underlying `await axios(axiosConfig)` call inside
`IndexerClient.request`: either a settled response, a rejection carrying
`error.response`, a rejection with `error.request` but no response (network
failure), or a non-axios throw (whose `message` is present iff the thrown
value was an `Error`). -/
inductive AxiosOutcome (T : Type) where
  | response (status : Nat) (statusText : String) (data : T) (headers : List (String × String))
  | errorResponse (status : Nat) (statusText : String) (data : T) (headers : List (String × String))
  | errorNoResponse (message : String)
  | errorNonAxios (message : Option String)
deriving DecidableEq

/-- Embedding of the response-handling part of `IndexerClient.request`
(src/src/network/IndexerClient.ts lines 266-307).  The parameter `now` stands
for the client-side `new Date().toISOString()` value.  A returned envelope is
`Except.ok`; a `throw new Error(...)` is `Except.error` with the thrown
message. -/
def handleAxiosOutcome {T : Type} (now : String) : AxiosOutcome T → Except String (NetworkResponse T)
  | .response s st d h =>
      .ok { ok := decide (200 ≤ s ∧ s < 300), status := s, statusText := st, data := d,
            headers := h, success := decide (200 ≤ s ∧ s < 300), timestamp := now }
  | .errorResponse s st d h =>
      .ok { ok := false, status := s, statusText := st, data := d, headers := h,
            success := false, timestamp := now }
  | .errorNoResponse m => .error ("Indexer API request failed: " ++ m)
  | .errorNonAxios (some m) => .error ("Indexer API request failed: " ++ m)
  | .errorNonAxios none => .error ("Indexer API request failed: Unknown error")

/-- Axios's default `validateStatus` contract: a rejection that carries
`error.response` only happens for a status outside [200,300). -/
def axiosValidateStatusContract {T : Type} : AxiosOutcome T → Prop
  | .errorResponse s _ _ _ => ¬ (200 ≤ s ∧ s < 300)
  | _ => True

/-- Predicate: the transport outcome carries an HTTP response (settled, or
rejected with `error.response`). -/
def carriesResponse {T : Type} : AxiosOutcome T → Prop
  | .response _ _ _ _ => True
  | .errorResponse _ _ _ _ => True
  | _ => False

/-- JavaScript value as relevant for `options.body` in `IndexerClient.request`:
`undefined`, `null`, booleans, (integral) numbers, strings, or an opaque
object identified by a tag. -/
inductive JSVal where
  | undef
  | jsNull
  | jsBool (b : Bool)
  | jsNum (n : Int)
  | jsStr (s : String)
  | jsObj (tag : Nat)
deriving DecidableEq

/-- JavaScript truthiness, as tested by `if (options?.body)`. -/
def JSVal.truthy : JSVal → Bool
  | undef => false
  | jsNull => false
  | jsBool b => b
  | jsNum n => decide (n ≠ 0)
  | jsStr s => decide (s ≠ "")
  | jsObj _ => true

/-- Embedding of the computation of `axiosConfig.data` from `options.body`
(src/src/network/IndexerClient.ts lines 254-264).  `JSON.parse` is abstracted
as the function `parse` (`some` = parse succeeded); the computation is the
same for every HTTP method.  A result of `none` means no body is attached to
the dispatched request. -/
def axiosConfigData (parse : String → Option JSVal) (body : JSVal) : Option JSVal :=
  if body.truthy then
    match body with
    | .jsStr s =>
        match parse s with
        | some v => some v
        | none => some (.jsStr s)
    | b => some b
  else none

/-- Removal of every carriage-return and line-feed character, embedding
`signature.replace(/[\r\n]/g, '')`: the regex engine scans the characters in
order and drops each match. -/
def removeCRLF : List Char → List Char
  | [] => []
  | c :: rest => if c = '\r' ∨ c = '\n' then removeCRLF rest else c :: removeCRLF rest

/-- Unreserved characters of JavaScript `encodeURIComponent`:
A-Z, a-z, 0-9 and the marks - _ . ! ~ * ' ( ) (code points 45, 95, 46, 33,
126, 42, 39, 40, 41). -/
def isURIUnreserved (c : Char) : Bool :=
  (65 ≤ c.toNat && c.toNat ≤ 90) || (97 ≤ c.toNat && c.toNat ≤ 122) ||
  (48 ≤ c.toNat && c.toNat ≤ 57) ||
  c.toNat == 45 || c.toNat == 95 || c.toNat == 46 || c.toNat == 33 ||
  c.toNat == 126 || c.toNat == 42 || c.toNat == 39 || c.toNat == 40 || c.toNat == 41

/-- UTF-8 encoding of one Unicode code point, as a list of byte values. -/
def utf8Bytes (n : Nat) : List Nat :=
  if n < 128 then [n]
  else if n < 2048 then [192 + n / 64, 128 + n % 64]
  else if n < 65536 then [224 + n / 4096, 128 + n / 64 % 64, 128 + n % 64]
  else [240 + n / 262144, 128 + n / 4096 % 64, 128 + n / 64 % 64, 128 + n % 64]

/-- Uppercase hexadecimal digit character for a value below 16. -/
def hexDigitChar (n : Nat) : Char :=
  if n < 10 then Char.ofNat (48 + n) else Char.ofNat (55 + n)

/-- Percent-encoding of one byte: '%' followed by two uppercase hex digits. -/
def percentByte (b : Nat) : List Char :=
  ['%', hexDigitChar (b / 16), hexDigitChar (b % 16)]

/-- Encoding of one character by `encodeURIComponent`: unreserved characters
pass through; every other character is replaced by the percent-encoding of its
UTF-8 bytes. -/
def encodeURIChar (c : Char) : List Char :=
  if isURIUnreserved c then [c] else ((utf8Bytes c.toNat).map percentByte).flatten

/-- Embedding of JavaScript `encodeURIComponent` over the characters of a
string. -/
def encodeURIComponent (cs : List Char) : List Char :=
  (cs.map encodeURIChar).flatten

/-- String-level wrapper of `encodeURIComponent`. -/
def encodeURIComponentStr (s : String) : String :=
  String.mk (encodeURIComponent s.data)

/-- Shape of the three headers built by `IndexerClient.createAuthHeaders`. -/
structure AuthHeaders where
  xSignature : String
  xMessage : String
  xSigner : String
deriving DecidableEq

/-- Embedding of `IndexerClient.createAuthHeaders`
(src/src/network/IndexerClient.ts lines 409-415). -/
def createAuthHeaders (auth : IndexerUserAuth) : AuthHeaders :=
  { xSignature := String.mk (removeCRLF auth.signature.data)
    xMessage := encodeURIComponentStr auth.message
    xSigner := auth.signer }

/-- Value of a hexadecimal digit character (either case), used by the
conforming percent-decoder. -/
def hexVal (c : Char) : Option Nat :=
  if 48 ≤ c.toNat && c.toNat ≤ 57 then some (c.toNat - 48)
  else if 65 ≤ c.toNat && c.toNat ≤ 70 then some (c.toNat - 55)
  else if 97 ≤ c.toNat && c.toNat ≤ 102 then some (c.toNat - 87)
  else none

/-- Tokenization pass of a conforming percent-decoder: each `%XX` becomes a
byte token, every other character stays a literal token. -/
def percentTokens : List Char → Option (List (Sum Char Nat))
  | [] => some []
  | c :: cs =>
    if c = '%' then
      match cs with
      | h1 :: h2 :: cs2 =>
        match hexVal h1, hexVal h2 with
        | some a, some b => (percentTokens cs2).map (fun ts => Sum.inr (16 * a + b) :: ts)
        | _, _ => none
      | _ => none
    else (percentTokens cs).map (fun ts => Sum.inl c :: ts)

/-- UTF-8 decoding pass of a conforming percent-decoder over the token
stream, written as a left-to-right automaton: the state `none` means no byte
sequence is pending, and `some (acc, k)` means a code point with current
accumulator `acc` still expects `k` continuation bytes.  Literal tokens are
kept; byte tokens are reassembled into code points; malformed sequences
(stray or missing continuation bytes, invalid lead bytes, literals inside a
sequence) fail. -/
def utf8DecodeAux : List (Sum Char Nat) → Option (Nat × Nat) → Option (List Char)
  | [], none => some []
  | [], some _ => none
  | Sum.inl c :: ts, none => (utf8DecodeAux ts none).map (fun r => c :: r)
  | Sum.inl _ :: _, some _ => none
  | Sum.inr b :: ts, none =>
      if b < 128 then (utf8DecodeAux ts none).map (fun r => Char.ofNat b :: r)
      else if b < 192 then none
      else if b < 224 then utf8DecodeAux ts (some (b - 192, 1))
      else if b < 240 then utf8DecodeAux ts (some (b - 224, 2))
      else if b < 248 then utf8DecodeAux ts (some (b - 240, 3))
      else none
  | Sum.inr b :: ts, some (acc, k) =>
      if 128 ≤ b ∧ b < 192 then
        if k = 1 then (utf8DecodeAux ts none).map (fun r => Char.ofNat (acc * 64 + (b - 128)) :: r)
        else utf8DecodeAux ts (some (acc * 64 + (b - 128), k - 1))
      else none

/-- UTF-8 decoding of a full token stream, starting with no pending
sequence. -/
def utf8DecodeTokens (ts : List (Sum Char Nat)) : Option (List Char) :=
  utf8DecodeAux ts none

/-- Conforming percent-decoder (the behaviour of `decodeURIComponent` on
well-formed input): tokenize `%XX` bytes, then UTF-8-decode the stream. -/
def decodeURIComponentModel (cs : List Char) : Option (List Char) :=
  (percentTokens cs).bind utf8DecodeTokens

/-- Token form of the encoding of one character, used to relate the two
decoder passes. -/
def charTokens (c : Char) : List (Sum Char Nat) :=
  if isURIUnreserved c then [Sum.inl c] else (utf8Bytes c.toNat).map Sum.inr

/-- Payload of the `console.log` call at the top of
`IndexerClient.getWalletAccounts` (src/src/network/IndexerClient.ts lines
426-432): the whole `auth` credential object is part of the logged value. -/
structure GetWalletAccountsLogPayload where
  walletAddress : String
  auth : IndexerUserAuth
  referralCode : Option String
  baseUrl : String
  endpoint : String
deriving DecidableEq

/-- Embedding of the diagnostic payload logged by
`IndexerClient.getWalletAccounts` before dispatching the request. -/
def getWalletAccountsLog (baseUrl walletAddress : String) (auth : IndexerUserAuth)
    (referralCode : Option String) : GetWalletAccountsLogPayload :=
  { walletAddress := walletAddress
    auth := auth
    referralCode := referralCode
    baseUrl := baseUrl
    endpoint := "/wallets/" ++ encodeURIComponentStr walletAddress ++ "/accounts" }

/-- Settlement behaviour of the wrapped async operation inside the dev-mode
fallback of `useIndexerPoints.getPointsLeaderboard`: it either resolves with a
value at time `t` (milliseconds) or rejects with an error message at time
`t`. -/
inductive AsyncOutcome (α : Type) where
  | resolves (t : Nat) (v : α)
  | rejects (t : Nat) (message : String)
deriving DecidableEq

/-- Result of `Promise.race` between the operation and the 2000 ms rejection
timer of the dev-mode branch (src/src/hooks/useIndexerPoints.ts lines 82-87):
the operation's settlement wins iff it happens strictly before the timer
fires. -/
def raceOutcome {α : Type} (op : AsyncOutcome α) (timeoutMs : Nat) : Except String α :=
  match op with
  | .resolves t v => if t < timeoutMs then .ok v else .error "DevMode timeout"
  | .rejects t m => if t < timeoutMs then .error m else .error "DevMode timeout"

/-- Observable result of one call to the hook-level `getPointsLeaderboard`
wrapper: the value delivered to the caller (`Except.error` = the caller
observes a rejection), whether the mock-data branch ran, the `error` state
left behind by `setError`, and the `console.warn` diagnostics emitted. -/
structure HookCallResult (α : Type) where
  outcome : Except String α
  usedMock : Bool
  errorState : Option String
  warnings : List String

/-- Embedding of `getPointsLeaderboard` from src/src/hooks/useIndexerPoints.ts
(lines 70-117).  In dev mode the live call is raced against a 2000 ms timer;
any rejection of the race is caught, a `console.warn` diagnostic is emitted,
the error state is reset to null, and the mock value `mockFn ()` is returned.
In normal mode the operation's rejection is recorded in the error state and
re-thrown. -/
def getPointsLeaderboardModel {α : Type} (resolvedDevMode : Bool) (op : AsyncOutcome α)
    (mockFn : Unit → α) : HookCallResult α :=
  if resolvedDevMode then
    match raceOutcome op 2000 with
    | .ok v => { outcome := .ok v, usedMock := false, errorState := none, warnings := [] }
    | .error m =>
        { outcome := .ok (mockFn ())
          usedMock := true
          errorState := none
          warnings :=
            ["[DevMode] getPointsLeaderboard failed quickly, returning mock data: " ++ m] }
  else
    match op with
    | .resolves _ v => { outcome := .ok v, usedMock := false, errorState := none, warnings := [] }
    | .rejects _ m => { outcome := .error m, usedMock := false, errorState := some m, warnings := [] }

/-- Predicate: the wrapped operation rejects, or does not resolve within the
2000 ms dev-mode fallback timeout. -/
def failsOrLate {α : Type} : AsyncOutcome α → Prop
  | .resolves t _ => 2000 ≤ t
  | .rejects _ _ => True

/-- Modelled from the spec: the referral consumption state machine of the
hook `useIndexerReferralConsumption`, whose implementation file is not under
src/ (only its export declaration and documentation are).  The persisted
record is a single optional code; `consumeReferralCode` returns the stored
code without deleting it, `clearReferralCode` deletes it, and
`setReferralCode` overwrites it unconditionally. -/
def consumeReferralCode (st : Option String) : Option String × Option String :=
  (st, st)

/-- Modelled from the spec: `clearReferralCode` removes the stored record. -/
def clearReferralCode (_st : Option String) : Option String :=
  none

/-- Modelled from the spec: `setReferralCode` overwrites the stored record
unconditionally (last-write-wins). -/
def setReferralCode (code : String) (_st : Option String) : Option String :=
  some code

/-- State left behind by one `consumeReferralCode` call. -/
def consumeStep (st : Option String) : Option String :=
  (consumeReferralCode st).2

/-- Removal of CR/LF characters agrees with filtering them out. -/
theorem removeCRLF_eq_filter (l : List Char) :
    removeCRLF l = l.filter (fun c => !(c == '\r' || c == '\n')) := by
  induction l with
  | nil => rfl
  | cons c rest ih =>
    by_cases h : c = '\r' ∨ c = '\n'
    · rcases h with h | h <;> subst h <;> simp [removeCRLF, ih]
    · push_neg at h
      simp [removeCRLF, h.1, h.2, ih, List.filter_cons]

/-- Code points of characters are below 0x110000. -/
theorem char_toNat_lt (c : Char) : c.toNat < 1114112 := by
  have h : Nat.isValidChar c.toNat := c.valid
  rcases h with h | ⟨h1, h2⟩ <;> omega

/-- Hex digits emitted by the encoder are read back by the decoder. -/
theorem hexVal_hexDigitChar (d : Nat) (hd : d < 16) : hexVal (hexDigitChar d) = some d := by
  interval_cases d <;> decide

/-- Tokenizing a percent-encoded byte yields the byte token. -/
theorem percentTokens_percentByte (bv : Nat) (hb : bv < 256) (rest : List Char) :
    percentTokens (percentByte bv ++ rest) =
      (percentTokens rest).map (fun ts => Sum.inr bv :: ts) := by
  have h1 : bv / 16 < 16 := by omega
  have h2 : bv % 16 < 16 := by omega
  show percentTokens ('%' :: hexDigitChar (bv / 16) :: hexDigitChar (bv % 16) :: rest) = _
  rw [percentTokens, if_pos rfl, hexVal_hexDigitChar _ h1, hexVal_hexDigitChar _ h2]
  simp only []
  have harith : 16 * (bv / 16) + bv % 16 = bv := by omega
  rw [harith]

/-- Tokenizing a literal (non-percent) character keeps it. -/
theorem percentTokens_lit (c : Char) (hc : c ≠ '%') (cs : List Char) :
    percentTokens (c :: cs) = (percentTokens cs).map (fun ts => Sum.inl c :: ts) := by
  rw [percentTokens.eq_def]
  simp only []
  rw [if_neg hc]

/-- Bytes produced by the UTF-8 encoder fit in one byte. -/
theorem utf8Bytes_lt (n : Nat) (hn : n < 1114112) : ∀ b ∈ utf8Bytes n, b < 256 := by
  intro b hb
  unfold utf8Bytes at hb
  split_ifs at hb with h1 h2 h3
  · simp at hb; omega
  · simp at hb; rcases hb with rfl | rfl <;> omega
  · simp at hb; rcases hb with rfl | rfl | rfl <;> omega
  · simp at hb; rcases hb with rfl | rfl | rfl | rfl <;> omega

/-- Tokenizing a percent-encoded byte list yields the byte tokens. -/
theorem percentTokens_byteList (bs : List Nat) (hbs : ∀ b ∈ bs, b < 256) (rest : List Char) :
    percentTokens ((bs.map percentByte).flatten ++ rest) =
      (percentTokens rest).map (fun ts => bs.map Sum.inr ++ ts) := by
  induction bs with
  | nil =>
    simp only [List.map_nil, List.flatten_nil, List.nil_append]
    cases percentTokens rest <;> simp
  | cons b bs ih =>
    simp only [List.map_cons, List.flatten_cons, List.append_assoc]
    rw [percentTokens_percentByte b (hbs b (List.mem_cons_self b bs)) _]
    rw [ih (fun x hx => hbs x (List.mem_cons_of_mem b hx))]
    cases percentTokens rest <;> simp

/-- Unreserved characters are never the percent sign. -/
theorem isURIUnreserved_ne_percent (c : Char) (h : isURIUnreserved c = true) : c ≠ '%' := by
  intro he
  subst he
  exact absurd h (by decide)

/-- Tokenizing the encoding of one character yields its token form. -/
theorem percentTokens_encodeChar (c : Char) (rest : List Char) :
    percentTokens (encodeURIChar c ++ rest) =
      (percentTokens rest).map (fun ts => charTokens c ++ ts) := by
  by_cases h : isURIUnreserved c
  · simp only [encodeURIChar, if_pos h, charTokens, List.singleton_append]
    rw [percentTokens_lit c (isURIUnreserved_ne_percent c h)]
  · simp only [encodeURIChar, if_neg h, charTokens]
    rw [percentTokens_byteList _ (utf8Bytes_lt c.toNat (char_toNat_lt c)) rest]

/-- Tokenizing an encoded string yields the concatenated token forms. -/
theorem percentTokens_encode (cs : List Char) (rest : List Char) :
    percentTokens (encodeURIComponent cs ++ rest) =
      (percentTokens rest).map (fun ts => (cs.map charTokens).flatten ++ ts) := by
  induction cs with
  | nil =>
    simp only [encodeURIComponent, List.map_nil, List.flatten_nil, List.nil_append]
    cases percentTokens rest <;> simp
  | cons c cs ih =>
    simp only [encodeURIComponent, List.map_cons, List.flatten_cons, List.append_assoc] at *
    rw [percentTokens_encodeChar, ih]
    cases percentTokens rest <;> simp

/-- Decoding the byte tokens of one UTF-8-encoded code point recovers it. -/
theorem utf8DecodeAux_bytes (n : Nat) (hlt : n < 1114112) (ts : List (Sum Char Nat)) :
    utf8DecodeAux ((utf8Bytes n).map Sum.inr ++ ts) none =
      (utf8DecodeAux ts none).map (fun r => Char.ofNat n :: r) := by
  by_cases h1 : n < 128
  · have hb : utf8Bytes n = [n] := by unfold utf8Bytes; rw [if_pos h1]
    rw [hb]
    simp only [List.map_cons, List.map_nil, List.cons_append, List.nil_append]
    rw [utf8DecodeAux, if_pos h1]
  · by_cases h2 : n < 2048
    · have hb : utf8Bytes n = [192 + n / 64, 128 + n % 64] := by
        unfold utf8Bytes; rw [if_neg h1, if_pos h2]
      rw [hb]
      simp only [List.map_cons, List.map_nil, List.cons_append, List.nil_append]
      rw [utf8DecodeAux, if_neg (by omega), if_neg (by omega), if_pos (by omega)]
      rw [utf8DecodeAux, if_pos (by constructor <;> omega), if_pos rfl]
      have harith : (192 + n / 64 - 192) * 64 + (128 + n % 64 - 128) = n := by omega
      rw [harith]
    · by_cases h3 : n < 65536
      · have hb : utf8Bytes n = [224 + n / 4096, 128 + n / 64 % 64, 128 + n % 64] := by
          unfold utf8Bytes; rw [if_neg h1, if_neg h2, if_pos h3]
        rw [hb]
        simp only [List.map_cons, List.map_nil, List.cons_append, List.nil_append]
        rw [utf8DecodeAux, if_neg (by omega), if_neg (by omega), if_neg (by omega),
          if_pos (by omega)]
        rw [utf8DecodeAux, if_pos (by constructor <;> omega), if_neg (by omega)]
        rw [utf8DecodeAux, if_pos (by constructor <;> omega), if_pos rfl]
        have harith :
            ((224 + n / 4096 - 224) * 64 + (128 + n / 64 % 64 - 128)) * 64 + (128 + n % 64 - 128) =
              n := by
          omega
        rw [harith]
      · have hb : utf8Bytes n =
            [240 + n / 262144, 128 + n / 4096 % 64, 128 + n / 64 % 64, 128 + n % 64] := by
          unfold utf8Bytes; rw [if_neg h1, if_neg h2, if_neg h3]
        rw [hb]
        simp only [List.map_cons, List.map_nil, List.cons_append, List.nil_append]
        rw [utf8DecodeAux, if_neg (by omega), if_neg (by omega), if_neg (by omega),
          if_neg (by omega), if_pos (by omega)]
        rw [utf8DecodeAux, if_pos (by constructor <;> omega), if_neg (by omega)]
        rw [utf8DecodeAux, if_pos (by constructor <;> omega), if_neg (by omega)]
        rw [utf8DecodeAux, if_pos (by constructor <;> omega), if_pos rfl]
        have harith :
            (((240 + n / 262144 - 240) * 64 + (128 + n / 4096 % 64 - 128)) * 64 +
                  (128 + n / 64 % 64 - 128)) * 64 + (128 + n % 64 - 128) = n := by
          omega
        rw [harith]

/-- Decoding the token form of one character recovers the character. -/
theorem utf8DecodeAux_charTokens (c : Char) (ts : List (Sum Char Nat)) :
    utf8DecodeAux (charTokens c ++ ts) none =
      (utf8DecodeAux ts none).map (fun r => c :: r) := by
  by_cases h : isURIUnreserved c
  · simp only [charTokens, if_pos h, List.singleton_append]
    rw [utf8DecodeAux]
  · simp only [charTokens, if_neg h]
    rw [utf8DecodeAux_bytes c.toNat (char_toNat_lt c) ts, Char.ofNat_toNat]

/-- Decoding the full token form of a string recovers the string. -/
theorem utf8DecodeAux_encodeTokens (cs : List Char) :
    utf8DecodeAux ((cs.map charTokens).flatten) none = some cs := by
  induction cs with
  | nil => rfl
  | cons c cs ih =>
    simp only [List.map_cons, List.flatten_cons]
    rw [utf8DecodeAux_charTokens, ih]
    rfl

/-- Round trip: a conforming percent-decoder recovers exactly the characters
fed into the header encoder. -/
theorem decodeURIComponentModel_encode (cs : List Char) :
    decodeURIComponentModel (encodeURIComponent cs) = some cs := by
  have h2 : percentTokens (encodeURIComponent cs) = some ((cs.map charTokens).flatten) := by
    have h := percentTokens_encode cs []
    rw [List.append_nil] at h
    simpa [percentTokens] using h
  unfold decodeURIComponentModel
  rw [h2]
  simpa [utf8DecodeTokens] using utf8DecodeAux_encodeTokens cs

/-- C1: every envelope returned by `IndexerClient.request` (from a settled
response or from `error.response`) satisfies `success = ok`, and `ok` is true
iff the HTTP status lies in [200,300); the error branch uses axios's default
`validateStatus` contract that a rejection carrying a response has a non-2xx
status. -/
theorem c1_envelope_ok_success_invariant {T : Type} (now : String) (r : AxiosOutcome T)
    (E : NetworkResponse T) (hE : handleAxiosOutcome now r = .ok E)
    (hax : axiosValidateStatusContract r) :
    E.success = E.ok ∧ (E.ok = true ↔ 200 ≤ E.status ∧ E.status < 300) := by
  cases r with
  | response s st d h =>
    simp only [handleAxiosOutcome, Except.ok.injEq] at hE
    subst hE
    refine ⟨rfl, ?_⟩
    simp [decide_eq_true_iff]
  | errorResponse s st d h =>
    simp only [handleAxiosOutcome, Except.ok.injEq] at hE
    subst hE
    refine ⟨rfl, ?_⟩
    have hax2 : ¬ (200 ≤ s ∧ s < 300) := hax
    simpa using hax2
  | errorNoResponse m =>
    simp [handleAxiosOutcome] at hE
  | errorNonAxios m =>
    cases m <;> simp [handleAxiosOutcome] at hE

/-- Witness for C1 at a concrete 404 `error.response` outcome. -/
theorem c1_envelope_ok_success_invariant_witness :
    ({ ok := false, status := 404, statusText := "Not Found", data := (0 : Nat),
       headers := [], success := false, timestamp := "t0" } : NetworkResponse Nat).success =
      ({ ok := false, status := 404, statusText := "Not Found", data := (0 : Nat),
         headers := [], success := false, timestamp := "t0" } : NetworkResponse Nat).ok ∧
    (({ ok := false, status := 404, statusText := "Not Found", data := (0 : Nat),
        headers := [], success := false, timestamp := "t0" } : NetworkResponse Nat).ok = true ↔
      200 ≤ ({ ok := false, status := 404, statusText := "Not Found", data := (0 : Nat),
               headers := [], success := false, timestamp := "t0" } : NetworkResponse Nat).status ∧
        ({ ok := false, status := 404, statusText := "Not Found", data := (0 : Nat),
           headers := [], success := false, timestamp := "t0" } : NetworkResponse Nat).status < 300) :=
  c1_envelope_ok_success_invariant "t0" (.errorResponse 404 "Not Found" 0 []) _ rfl
    (by intro h; omega)

/-- C2 (code-bug evidence): the diagnostic payload logged by
`getWalletAccounts` contains the full credential — in particular the raw
signature and the signed message appear verbatim in diagnostic output, also
at the concrete failing input below. -/
theorem c2_auth_credential_logged :
    (∀ (b w : String) (a : IndexerUserAuth) (rc : Option String),
      (getWalletAccountsLog b w a rc).auth = a) ∧
    (getWalletAccountsLog "https://indexer.example.com" "0xabc"
        ⟨"Sign in to 0xmail", "SIGDATA123", "0xabc"⟩ none).auth.signature = "SIGDATA123" ∧
    (getWalletAccountsLog "https://indexer.example.com" "0xabc"
        ⟨"Sign in to 0xmail", "SIGDATA123", "0xabc"⟩ none).auth.message = "Sign in to 0xmail" :=
  ⟨fun _ _ _ _ => rfl, rfl, rfl⟩

/-- C3: `createAuthHeaders` is pure and deterministic; the x-signature header
is the input signature with every CR and LF removed (concretely,
"abc\r\ndef" becomes "abcdef"), and the x-signer header is the input signer
unchanged. -/
theorem c3_createAuthHeaders_deterministic_strips_crlf :
    (∀ a1 a2 : IndexerUserAuth, a1.message = a2.message → a1.signature = a2.signature →
      a1.signer = a2.signer → createAuthHeaders a1 = createAuthHeaders a2) ∧
    (∀ a : IndexerUserAuth, (createAuthHeaders a).xSignature.data =
      a.signature.data.filter (fun c => !(c == '\r' || c == '\n'))) ∧
    (∀ a : IndexerUserAuth, (createAuthHeaders a).xSigner = a.signer) ∧
    (createAuthHeaders ⟨"m", "abc\r\ndef", "s"⟩).xSignature = "abcdef" := by
  refine ⟨?_, ?_, ?_, ?_⟩
  · rintro ⟨m1, s1, g1⟩ ⟨m2, s2, g2⟩ hm hs hg
    simp only at hm hs hg
    subst hm; subst hs; subst hg; rfl
  · intro a
    simp [createAuthHeaders, removeCRLF_eq_filter]
  · intro a; rfl
  · rfl

/-- Witness for C3: the determinism conjunct applied at equal concrete
credentials, together with the concrete CR/LF-stripping scenario. -/
theorem c3_createAuthHeaders_deterministic_strips_crlf_witness :
    createAuthHeaders ⟨"m1", "sig1", "0xs"⟩ = createAuthHeaders ⟨"m1", "sig1", "0xs"⟩ ∧
    (createAuthHeaders ⟨"m", "abc\r\ndef", "s"⟩).xSignature = "abcdef" :=
  ⟨c3_createAuthHeaders_deterministic_strips_crlf.1 ⟨"m1", "sig1", "0xs"⟩ ⟨"m1", "sig1", "0xs"⟩
      rfl rfl rfl,
    c3_createAuthHeaders_deterministic_strips_crlf.2.2.2⟩

/-- C4: the x-message header built by `createAuthHeaders` is the message
percent-encoded once, and a conforming percent-decoder applied to the header
value yields the original message character-for-character; concretely,
"hello world" is encoded as "hello%20world". -/
theorem c4_xmessage_percent_roundtrip :
    (∀ auth : IndexerUserAuth,
      decodeURIComponentModel ((createAuthHeaders auth).xMessage.data) =
        some auth.message.data) ∧
    encodeURIComponentStr "hello world" = "hello%20world" := by
  constructor
  · intro auth
    exact decodeURIComponentModel_encode auth.message.data
  · decide

/-- C5: every transport outcome that carries an HTTP response is wrapped into
an envelope (never thrown), and the `error.response` branch preserves status,
statusText and the server-provided error body with `ok = false`. -/
theorem c5_http_error_wrapped_not_thrown {T : Type} (now : String) (r : AxiosOutcome T)
    (hr : carriesResponse r) :
    (∃ E, handleAxiosOutcome now r = .ok E) ∧
    (∀ s st d h, r = .errorResponse s st d h →
      handleAxiosOutcome now r =
        .ok { ok := false, status := s, statusText := st, data := d, headers := h,
              success := false, timestamp := now }) := by
  cases r with
  | response s st d h =>
    exact ⟨⟨_, rfl⟩, by intro s2 st2 d2 h2 hcontra; cases hcontra⟩
  | errorResponse s st d h =>
    refine ⟨⟨_, rfl⟩, ?_⟩
    rintro s2 st2 d2 h2 ⟨rfl, rfl, rfl, rfl⟩
    rfl
  | errorNoResponse m => cases hr
  | errorNonAxios m => cases hr

/-- Witness for C5 at a concrete 500 `error.response` outcome. -/
theorem c5_http_error_wrapped_not_thrown_witness :
    (∃ E, handleAxiosOutcome "t0" (.errorResponse 500 "Internal Server Error" (7 : Nat) []) =
      .ok E) ∧
    (∀ s st d h,
      (AxiosOutcome.errorResponse 500 "Internal Server Error" (7 : Nat) [] :
          AxiosOutcome Nat) = .errorResponse s st d h →
      handleAxiosOutcome "t0"
          (AxiosOutcome.errorResponse 500 "Internal Server Error" (7 : Nat) []) =
        .ok { ok := false, status := s, statusText := st, data := d, headers := h,
              success := false, timestamp := "t0" }) :=
  c5_http_error_wrapped_not_thrown "t0" (.errorResponse 500 "Internal Server Error" 7 [])
    trivial

/-- C6: a transport failure with no HTTP response makes `request` throw an
error embedding the underlying transport diagnostic, and never produces an
envelope. -/
theorem c6_no_response_throws {T : Type} (now m : String) :
    handleAxiosOutcome (T := T) now (.errorNoResponse m) =
      .error ("Indexer API request failed: " ++ m) ∧
    ∀ E : NetworkResponse T, handleAxiosOutcome now (.errorNoResponse m) ≠ .ok E := by
  refine ⟨rfl, ?_⟩
  intro E h
  simp [handleAxiosOutcome] at h

/-- C7: with dev-mode fallback enabled, an operation that rejects or does not
resolve within the 2000 ms fallback timeout yields exactly the synthesized
mock value, the caller observes no rejection, the error state is cleared, and
exactly one non-fatal diagnostic is emitted. -/
theorem c7_devmode_fallback_swallows_errors {α : Type} (op : AsyncOutcome α)
    (mockFn : Unit → α) (h : failsOrLate op) :
    (getPointsLeaderboardModel true op mockFn).outcome = .ok (mockFn ()) ∧
    (getPointsLeaderboardModel true op mockFn).usedMock = true ∧
    (getPointsLeaderboardModel true op mockFn).errorState = none ∧
    (getPointsLeaderboardModel true op mockFn).warnings.length = 1 := by
  cases op with
  | resolves t v =>
    have ht : ¬ t < 2000 := by simpa [failsOrLate] using h
    simp [getPointsLeaderboardModel, raceOutcome, ht]
  | rejects t m =>
    by_cases ht : t < 2000 <;> simp [getPointsLeaderboardModel, raceOutcome, ht]

/-- Witness for C7 at an operation that rejects immediately. -/
theorem c7_devmode_fallback_swallows_errors_witness :
    (getPointsLeaderboardModel true (.rejects 0 "connection refused") (fun _ => (42 : Nat))).outcome =
      .ok 42 ∧
    (getPointsLeaderboardModel true (.rejects 0 "connection refused") (fun _ => (42 : Nat))).usedMock =
      true ∧
    (getPointsLeaderboardModel true (.rejects 0 "connection refused") (fun _ => (42 : Nat))).errorState =
      none ∧
    (getPointsLeaderboardModel true (.rejects 0 "connection refused") (fun _ => (42 : Nat))).warnings.length =
      1 :=
  c7_devmode_fallback_swallows_errors (.rejects 0 "connection refused") (fun _ => 42)
    (by simp [failsOrLate])

/-- C8: with dev-mode fallback enabled, an operation that resolves within the
2000 ms fallback timeout delivers exactly its own result and the mock-data
branch is never taken. -/
theorem c8_fast_resolution_wins {α : Type} (t : Nat) (v : α) (mockFn : Unit → α)
    (ht : t < 2000) :
    getPointsLeaderboardModel true (.resolves t v) mockFn =
      { outcome := .ok v, usedMock := false, errorState := none, warnings := [] } := by
  simp [getPointsLeaderboardModel, raceOutcome, ht]

/-- Witness for C8 at an operation resolving at 10 ms. -/
theorem c8_fast_resolution_wins_witness :
    getPointsLeaderboardModel true (.resolves 10 (5 : Nat)) (fun _ => 0) =
      { outcome := .ok 5, usedMock := false, errorState := none, warnings := [] } :=
  c8_fast_resolution_wins 10 5 (fun _ => 0) (by omega)

/-- C9: the referral consumption machine is non-destructive and idempotent —
any number of consecutive `consume` calls from a pending code each return that
code and leave the record unchanged; after `clear`, `consume` returns the
absent value; after `setCode B` while pending with `A`, `consume` returns `B`. -/
theorem c9_referral_consume_idempotent :
    (∀ (code : String) (n : Nat),
      consumeStep^[n] (some code) = some code ∧
      (consumeReferralCode (consumeStep^[n] (some code))).1 = some code) ∧
    (∀ st : Option String, (consumeReferralCode (clearReferralCode st)).1 = none) ∧
    (∀ a b : String, (consumeReferralCode (setReferralCode b (some a))).1 = some b) := by
  have hiter : ∀ (n : Nat) (s : Option String), consumeStep^[n] s = s := by
    intro n
    induction n with
    | zero => intro s; rfl
    | succ k ih =>
      intro s
      rw [Function.iterate_succ_apply, ih]
      rfl
  exact ⟨fun code n => ⟨hiter n (some code), by rw [hiter n (some code)]; rfl⟩,
    fun st => rfl, fun a b => rfl⟩

/-- C10: `IndexerClient.request` attaches a request body iff `options.body`
is truthy — in particular never for the empty string, 0, null or undefined —
and a nonempty string body that parses as JSON is sent as the parsed JSON
value rather than the original string; the computation is independent of the
HTTP method. -/
theorem c10_body_truthiness_and_json_parse (parse : String → Option JSVal) :
    (∀ body : JSVal, (axiosConfigData parse body).isSome = body.truthy) ∧
    axiosConfigData parse .undef = none ∧
    axiosConfigData parse .jsNull = none ∧
    axiosConfigData parse (.jsNum 0) = none ∧
    axiosConfigData parse (.jsStr "") = none ∧
    (∀ (s : String) (v : JSVal), s ≠ "" → parse s = some v →
      axiosConfigData parse (.jsStr s) = some v) := by
  refine ⟨?_, rfl, rfl, ?_, ?_, ?_⟩
  · intro body
    cases body with
    | jsStr s =>
      by_cases hs : s = ""
      · subst hs; rfl
      · cases hp : parse s <;> simp [axiosConfigData, JSVal.truthy, hs, hp]
    | jsNum n =>
      by_cases hn : n = 0
      · subst hn; rfl
      · simp [axiosConfigData, JSVal.truthy, hn]
    | jsBool b => cases b <;> rfl
    | undef => rfl
    | jsNull => rfl
    | jsObj tag => rfl
  · simp [axiosConfigData, JSVal.truthy]
  · simp [axiosConfigData, JSVal.truthy]
  · intro s v hs hv
    simp [axiosConfigData, JSVal.truthy, hs, hv]

/-- Witness for C10 with a concrete parse function on a concrete string body. -/
theorem c10_body_truthiness_and_json_parse_witness :
    axiosConfigData (fun s => if s = "7" then some (.jsNum 7) else none) (.jsStr "7") =
      some (.jsNum 7) :=
  (c10_body_truthiness_and_json_parse (fun s => if s = "7" then some (.jsNum 7) else none)).2.2.2.2.2
    "7" (.jsNum 7) (by decide) (by simp)

end MailBoxIndexer
